import Mathlib

/-!
Verification of `perplexity-mcp-poke` (src/server.py and archive/server.py).

The embedding models the parsed HTML document as a tree of element and text
nodes (the output of BeautifulSoup's parser), and translates the content
extraction pipeline and the two tool bodies (`search_perplexity`,
`fetch_webpage_content`) of both source files.  Network calls (the search API
request and the per-URL page fetches) are modelled as explicit `Except`-valued
inputs: `.ok` carries the parsed page / result list, `.error` carries the
exception message.  Python strings are Lean `String`s (character-level
slicing, as in CPython); the whitespace set of `str.split()` / `str.strip()`
is the ASCII whitespace set.
-/

namespace PerplexityMcp

/-- A parsed HTML node: either a text node or an element with a tag name,
attributes and children. -/
inductive Node : Type where
  | text : String → Node
  | elem : String → List (String × String) → List Node → Node

/-- ASCII whitespace as recognised by Python's `str.split()` / `str.strip()`:
space, tab, newline, carriage return, vertical tab, form feed. -/
def isPyWs (c : Char) : Bool :=
  c = ' ' || c = '\t' || c = '\n' || c = '\r' || c = '\x0b' || c = '\x0c'

/-- Python `str.strip()` on the character list: drop leading and trailing
whitespace. -/
def pyStripL (l : List Char) : List Char :=
  ((l.dropWhile isPyWs).reverse.dropWhile isPyWs).reverse

/-- Python `str.strip()`. -/
def pyStrip (s : String) : String := ⟨pyStripL s.data⟩

/-- Python `str.split()` (no argument): maximal runs of non-whitespace
characters, empty pieces dropped.  `acc` holds the current word reversed. -/
def pyWordsAux (acc : List Char) : List Char → List (List Char)
  | [] => if acc.isEmpty then [] else [acc.reverse]
  | c :: rest =>
    if isPyWs c then
      if acc.isEmpty then pyWordsAux [] rest else acc.reverse :: pyWordsAux [] rest
    else pyWordsAux (c :: acc) rest

/-- `sep.join(pieces)` on character lists. -/
def joinWith (sep : List Char) : List (List Char) → List Char
  | [] => []
  | [w] => w
  | w :: rest => w ++ sep ++ joinWith sep rest

/-- Python `' '.join(strs)`. -/
def joinSpace (strs : List String) : String :=
  ⟨joinWith [' '] (strs.map String.data)⟩

/-- Python `' '.join(s.split())` — collapse every whitespace run to a single
space and trim (src/server.py line 107 / 173, archive line 113). -/
def collapseWs (s : String) : String :=
  ⟨joinWith [' '] (pyWordsAux [] s.data)⟩

/-- Python slicing `s[:n]`: the first `n` characters. -/
def pySlice (s : String) (n : Nat) : String := ⟨s.data.take n⟩

/-- Boolean list-prefix test (used to recognise statuses of the form
`error: ...`). -/
def listPrefixOfB : List Char → List Char → Bool
  | [], _ => true
  | _ :: _, [] => false
  | a :: as, b :: bs => a == b && listPrefixOfB as bs

/-- Boolean substring test on character lists: does `t` occur inside `s`? -/
def listContainsB (t : List Char) : List Char → Bool
  | [] => listPrefixOfB t []
  | c :: rest => listPrefixOfB t (c :: rest) || listContainsB t rest

/-- Does string `s` contain `t` as a substring? -/
def strContains (s t : String) : Bool := listContainsB t.data s.data

/-- Does status string `s` start with `error: `? -/
def statusIsErr (s : String) : Bool := listPrefixOfB "error: ".data s.data

/-! ### BeautifulSoup operations used by the source -/

mutual

/-- `element.decompose()` applied to every element whose tag is in `bad`
(src/server.py lines 82-83 / 148-149): the element and its whole subtree are
removed. -/
def scrubN (bad : List String) : Node → Option Node
  | .text s => some (.text s)
  | .elem tag attrs cs =>
    if bad.contains tag then none else some (.elem tag attrs (scrubL bad cs))

/-- `decompose` over a list of sibling nodes. -/
def scrubL (bad : List String) : List Node → List Node
  | [] => []
  | n :: rest =>
    match scrubN bad n with
    | some m => m :: scrubL bad rest
    | none => scrubL bad rest

end

mutual

/-- All text-node strings below a node, in document order (BeautifulSoup's
`strings`). -/
def textsN : Node → List String
  | .text s => [s]
  | .elem _ _ cs => textsL cs

/-- All text-node strings below a list of sibling nodes, in document order. -/
def textsL : List Node → List String
  | [] => []
  | n :: rest => textsN n ++ textsL rest

end

/-- The CSS selector shapes appearing in the source's fixed selector list:
a tag name (`main`), a class (`.content`), an id (`#content`), or an exact
attribute value (`[role="main"]`). -/
inductive Selector : Type where
  | tag : String → Selector
  | cls : String → Selector
  | idSel : String → Selector
  | attrVal : String → String → Selector

/-- The tokens of a `class` attribute value (split on whitespace, as
BeautifulSoup does). -/
def classTokens (v : String) : List String :=
  (pyWordsAux [] v.data).map (fun w => ⟨w⟩)

/-- Does a node match a selector?  Text nodes never match. -/
def matchesSel (sel : Selector) : Node → Bool
  | .text _ => false
  | .elem tag attrs _ =>
    match sel with
    | .tag t => tag == t
    | .cls c =>
      match List.lookup "class" attrs with
      | some v => (classTokens v).contains c
      | none => false
    | .idSel i => List.lookup "id" attrs == some i
    | .attrVal k v => List.lookup k attrs == some v

mutual

/-- `soup.select_one(sel)` restricted to the subtree of one node: the first
matching element in document (pre-order) order. -/
def selOneN (sel : Selector) : Node → Option Node
  | .text _ => none
  | .elem tag attrs cs =>
    if matchesSel sel (.elem tag attrs cs) then some (.elem tag attrs cs)
    else selOneL sel cs

/-- `soup.select_one(sel)` over a list of sibling nodes. -/
def selOneL (sel : Selector) : List Node → Option Node
  | [] => none
  | n :: rest =>
    match selOneN sel n with
    | some m => some m
    | none => selOneL sel rest

end

/-- The tags whose string contents BeautifulSoup (≥ 4.9.0) parses as
`Script`/`Stylesheet`/`TemplateString` instances; `get_text()` filters
strings by type and therefore excludes them. -/
def invisibleTextTags : List String := ["script", "style", "template"]

mutual

/-- The text-node strings below a node that `get_text()` yields: under
`html.parser` the content of a `script`/`style`/`template` element is a
`Script`/`Stylesheet`/`TemplateString`, which bs4 ≥ 4.9.0 excludes from
`get_text()` by default, so text inside those elements is skipped. -/
def textsVisibleN : Node → List String
  | .text s => [s]
  | .elem tag _ cs =>
    if invisibleTextTags.contains tag then [] else textsVisibleL cs

/-- The `get_text()`-visible text-node strings below a list of siblings. -/
def textsVisibleL : List Node → List String
  | [] => []
  | n :: rest => textsVisibleN n ++ textsVisibleL rest

end

/-- Python `''.join(strs)`. -/
def joinAll (strs : List String) : String :=
  ⟨(strs.map String.data).flatten⟩

/-- `node.get_text(separator=' ', strip=True)` applied to a list of collected
strings: strip each, drop the ones that became empty, join with one space. -/
def getTextStripOf (strs : List String) : String :=
  joinSpace ((strs.map pyStrip).filter (fun s => s != ""))

/-- `node.get_text(separator=' ', strip=True)` on one node. -/
def getTextStripN (n : Node) : String := getTextStripOf (textsN n)

/-- `soup.get_text(separator=' ', strip=True)` on the whole document. -/
def getTextStripL (l : List Node) : String := getTextStripOf (textsL l)

/-! ### The extraction pipeline of src/server.py (both tools) and of
archive/server.py's `search_perplexity` -/

/-- The tags decomposed before any text is read (src/server.py line 82 / 148,
archive line 88). -/
def stripTags : List String :=
  ["script", "style", "nav", "header", "footer", "aside", "iframe"]

/-- The fixed, ordered selector list (src/server.py lines 87-95 / 153-161,
archive lines 93-101). -/
def selectors : List Selector :=
  [.tag "main", .tag "article", .attrVal "role" "main",
   .cls "content", .idSel "content", .cls "main-content", .idSel "main-content",
   .cls "post-content", .cls "entry-content", .cls "article-content",
   .cls "page-content", .idSel "page-content", .cls "post-body", .cls "article-body",
   .cls "content-area", .cls "site-content", .idSel "site-content",
   .cls "blog-post", .cls "single-post", .cls "post", .idSel "post",
   .attrVal "itemprop" "articleBody", .cls "markdown-body"]

/-- The `for selector in selectors: ... select_one ... break` loop: the first
selector in list order whose `select_one` finds a node wins. -/
def selectFirst (doc : List Node) : Option Node :=
  selectors.findSome? (fun sel => selOneL sel doc)

/-- The `main_content` value right before the whitespace cleanup
(src/server.py lines 86-104): the text of the first selector match, replaced
by the whole-document text when no selector matched *or* the matched node's
text is empty (`if not main_content:` is true both for `None` and for `""`).
The argument is the tree after the decompose pass. -/
def extractMid (doc2 : List Node) : String :=
  match (selectFirst doc2).map getTextStripN with
  | some s => if s = "" then getTextStripL doc2 else s
  | none => getTextStripL doc2

/-- The full extraction pipeline of src/server.py lines 79-107 (identical at
lines 145-173, and at archive lines 85-113), up to but not including the final
`[:cap]` slice: decompose the blacklisted tags, pick `main_content`, then
collapse whitespace (`' '.join(main_content.split())`). -/
def extractFull (doc : List Node) : String :=
  collapseWs (extractMid (scrubL stripTags doc))

/-- Extraction with the final slice `main_content[:cap]` (cap = 2000 on the
search-result path, 5000 on the direct fetch path). -/
def extract (cap : Nat) (doc : List Node) : String := pySlice (extractFull doc) cap

mutual

/-- `true` iff the subtree of a node contains no element whose tag is in
`bad`. -/
def cleanN (bad : List String) : Node → Bool
  | .text _ => true
  | .elem tag _ cs => !(bad.contains tag) && cleanL bad cs

/-- `true` iff a list of sibling trees contains no element whose tag is in
`bad`. -/
def cleanL (bad : List String) : List Node → Bool
  | [] => true
  | n :: rest => cleanN bad n && cleanL bad rest

end

/-- Every character of text that survives the decompose pass: the characters
of the text nodes of the scrubbed tree, in order. -/
def scrubbedChars (doc : List Node) : List Char :=
  ((textsL (scrubL stripTags doc)).map String.data).flatten

/-- Every character `get_text()` can see in an unscrubbed tree: the
characters of the text nodes outside `script`/`style`/`template` elements. -/
def visibleChars (doc : List Node) : List Char :=
  ((textsVisibleL doc).map String.data).flatten

/-! ### Tool envelopes -/

/-- One raw result from the search API response (`result.get(...)` fields;
a missing key yields `none`, as Python's `.get` yields `None`). -/
structure ResultIn where
  url : Option String
  title : Option String
  snippet : Option String
  date : Option String

/-- The page-fetch collaborator for the search path: for a URL, either the
parsed HTML of a successful 2xx response, or the message of the raised
exception. -/
abbrev Fetch := String → Except String (List Node)

/-- One enhanced result dict built by `search_perplexity`
(src/server.py lines 61-114, archive lines 67-120). -/
structure EnhancedResult where
  title : Option String
  url : Option String
  snippet : Option String
  date : Option String
  content : Option String
  content_extraction_status : String

/-- Python truthiness of `url` (the `if url:` guard): false for `None` and
for the empty string. -/
def urlTruthy : Option String → Bool
  | none => false
  | some s => s != ""

/-- The body of the per-result loop of `search_perplexity`
(src/server.py lines 59-114, identical at archive lines 65-120). -/
def processResult (fetch : Fetch) (r : ResultIn) : EnhancedResult :=
  let base : EnhancedResult :=
    { title := r.title, url := r.url, snippet := r.snippet, date := r.date,
      content := none, content_extraction_status := "not_attempted" }
  if urlTruthy r.url then
    match r.url with
    | some u =>
      match fetch u with
      | .ok doc =>
        { base with content := some (extract 2000 doc),
                    content_extraction_status := "success" }
      | .error e =>
        { base with content_extraction_status := "error: " ++ e }
    | none => base
  else base

/-- The envelope returned by `search_perplexity`: `none` fields model dict
keys absent from the branch that built the envelope. -/
structure SearchResponse where
  status : String
  query : String
  results : Option (List EnhancedResult)
  total_results : Option Nat
  error : Option String

/-- `search_perplexity` (src/server.py lines 16-128, identical in archive
lines 22-134).  `api` models the outcome of the primary search API call:
`.ok` carries the parsed `results` list, `.error` the message of the raised
`RequestException`. -/
def search_perplexity (api : Except String (List ResultIn)) (fetch : Fetch)
    (query : String) : SearchResponse :=
  match api with
  | .ok rs =>
    let enhanced := rs.map (processResult fetch)
    { status := "success", query := query, results := some enhanced,
      total_results := some enhanced.length, error := none }
  | .error e =>
    { status := "error", query := query, results := none,
      total_results := none, error := some e }

/-- The clamp applied to `max_results` before it is sent to the search API:
`min(max(max_results, 1), 20)` (src/server.py line 42, archive line 48). -/
def clampMaxResults (n : Int) : Int := min (max n 1) 20

/-- The page-fetch collaborator for `fetch_webpage_content`: parsed HTML plus
the HTTP status code on success, the exception message on failure. -/
abbrev FetchPage := String → Except String (List Node × Nat)

/-- The envelope returned by `fetch_webpage_content` in either file. -/
structure FetchResponse where
  status : String
  url : String
  content : Option String
  content_length : Option Nat
  status_code : Option Nat
  error : Option String

/-- `fetch_webpage_content` of src/server.py (lines 131-188): the full
selector pipeline, `content` sliced to 5000 characters, `content_length` the
length of the text *before* the slice. -/
def fetch_webpage_content (fetch : FetchPage) (url : String) : FetchResponse :=
  match fetch url with
  | .ok (doc, code) =>
    let main := extractFull doc
    { status := "success", url := url, content := some (pySlice main 5000),
      content_length := some main.length, status_code := some code, error := none }
  | .error e =>
    { status := "error", url := url, content := none, content_length := none,
      status_code := none, error := some e }

/-- `fetch_webpage_content` of archive/server.py (lines 137-168): no
decompose, no selectors, no whitespace cleanup — just `soup.get_text()`
sliced to 5000 characters.  `get_text()` with no arguments concatenates the
visible strings with no separator and no stripping; with bs4 ≥ 4.9.0 under
`html.parser` that excludes the `Script`/`Stylesheet`/`TemplateString`
contents of `script`/`style`/`template` elements but keeps everything else
(nav, header, footer, aside, iframe text included). -/
def archive_fetch_webpage_content (fetch : FetchPage) (url : String) :
    FetchResponse :=
  match fetch url with
  | .ok (doc, code) =>
    let main := joinAll (textsVisibleL doc)
    { status := "success", url := url, content := some (pySlice main 5000),
      content_length := some main.length, status_code := some code, error := none }
  | .error e =>
    { status := "error", url := url, content := none, content_length := none,
      status_code := none, error := some e }

/-! ### Helper lemmas -/

theorem listPrefixOfB_subset : ∀ (t s : List Char), listPrefixOfB t s = true → t ⊆ s
  | [], s, _ => List.nil_subset s
  | _ :: _, [], h => by simp [listPrefixOfB] at h
  | a :: as, b :: bs, h => by
    rw [listPrefixOfB, Bool.and_eq_true] at h
    have hab : a = b := by simpa using h.1
    subst hab
    exact List.cons_subset.mpr
      ⟨List.mem_cons_self a bs,
       (listPrefixOfB_subset as bs h.2).trans (List.subset_cons_self a bs)⟩

theorem listContainsB_subset : ∀ (s t : List Char), listContainsB t s = true → t ⊆ s
  | [], t, h => by
    cases t with
    | nil => exact List.nil_subset _
    | cons a as => simp [listContainsB, listPrefixOfB] at h
  | c :: rest, t, h => by
    rw [listContainsB, Bool.or_eq_true] at h
    rcases h with h | h
    · exact listPrefixOfB_subset t (c :: rest) h
    · exact (listContainsB_subset rest t h).trans (List.subset_cons_self c rest)

theorem listPrefixOfB_self_append : ∀ (l m : List Char), listPrefixOfB l (l ++ m) = true
  | [], _ => rfl
  | a :: as, m => by simp [listPrefixOfB, listPrefixOfB_self_append as m]

theorem statusIsErr_append (e : String) : statusIsErr ("error: " ++ e) = true := by
  unfold statusIsErr
  rw [String.data_append]
  exact listPrefixOfB_self_append _ _

theorem errStatus_ne_success (e : String) : ("error: " ++ e) ≠ "success" := by
  intro h
  have hd := congrArg String.data h
  rw [String.data_append] at hd
  have hh : ("error: ".data ++ e.data).head? = some 'e' := rfl
  rw [hd] at hh
  exact absurd hh (by decide)

theorem pyWordsAux_mem_chars :
    ∀ (l acc w : List Char), w ∈ pyWordsAux acc l → ∀ c ∈ w, c ∈ acc ∨ c ∈ l
  | [], acc, w, hw, c, hc => by
    rw [pyWordsAux] at hw
    by_cases hacc : acc.isEmpty
    · simp [hacc] at hw
    · simp [hacc] at hw
      exact Or.inl (List.mem_reverse.mp (hw ▸ hc))
  | c' :: rest, acc, w, hw, c, hc => by
    rw [pyWordsAux] at hw
    by_cases hws : isPyWs c'
    · simp only [hws, if_true] at hw
      by_cases hacc : acc.isEmpty
      · simp only [hacc, if_true] at hw
        rcases pyWordsAux_mem_chars rest [] w hw c hc with h | h
        · exact absurd h (List.not_mem_nil c)
        · exact Or.inr (List.mem_cons_of_mem c' h)
      · simp only [hacc, if_false] at hw
        rcases List.mem_cons.mp hw with hw | hw
        · exact Or.inl (List.mem_reverse.mp (hw ▸ hc))
        · rcases pyWordsAux_mem_chars rest [] w hw c hc with h | h
          · exact absurd h (List.not_mem_nil c)
          · exact Or.inr (List.mem_cons_of_mem c' h)
    · simp only [hws, if_false] at hw
      rcases pyWordsAux_mem_chars rest (c' :: acc) w hw c hc with h | h
      · rcases List.mem_cons.mp h with h | h
        · exact Or.inr (h ▸ List.mem_cons_self c' rest)
        · exact Or.inl h
      · exact Or.inr (List.mem_cons_of_mem c' h)

theorem joinWith_mem :
    ∀ (sep : List Char) (ws : List (List Char)) (c : Char),
      c ∈ joinWith sep ws → c ∈ sep ∨ ∃ w ∈ ws, c ∈ w
  | _, [], c, h => absurd h (List.not_mem_nil c)
  | _, [w], c, h => Or.inr ⟨w, List.mem_singleton_self w, h⟩
  | sep, w :: v :: rest, c, h => by
    have h' : c ∈ w ++ sep ++ joinWith sep (v :: rest) := h
    rcases List.mem_append.mp h' with h1 | h2
    · rcases List.mem_append.mp h1 with h3 | h4
      · exact Or.inr ⟨w, List.mem_cons_self w (v :: rest), h3⟩
      · exact Or.inl h4
    · rcases joinWith_mem sep (v :: rest) c h2 with h | ⟨u, hu, hc⟩
      · exact Or.inl h
      · exact Or.inr ⟨u, List.mem_cons_of_mem w hu, hc⟩

theorem collapseWs_mem (s : String) (c : Char) (h : c ∈ (collapseWs s).data) :
    c = ' ' ∨ c ∈ s.data := by
  have h' : c ∈ joinWith [' '] (pyWordsAux [] s.data) := h
  rcases joinWith_mem _ _ _ h' with h1 | ⟨w, hw, hc⟩
  · exact Or.inl (by simpa using h1)
  · rcases pyWordsAux_mem_chars s.data [] w hw c hc with h2 | h2
    · exact absurd h2 (List.not_mem_nil c)
    · exact Or.inr h2

theorem pyStripL_subset (l : List Char) : pyStripL l ⊆ l := by
  intro c hc
  unfold pyStripL at hc
  rw [List.mem_reverse] at hc
  have h1 : c ∈ (l.dropWhile isPyWs).reverse := (List.dropWhile_sublist isPyWs).subset hc
  rw [List.mem_reverse] at h1
  exact (List.dropWhile_sublist isPyWs).subset h1

theorem getTextStripOf_mem (strs : List String) (c : Char)
    (h : c ∈ (getTextStripOf strs).data) : c = ' ' ∨ ∃ s ∈ strs, c ∈ s.data := by
  have h' : c ∈ joinWith [' ']
      (((strs.map pyStrip).filter (fun s => s != "")).map String.data) := h
  rcases joinWith_mem _ _ _ h' with h1 | ⟨w, hw, hc⟩
  · exact Or.inl (by simpa using h1)
  · rcases List.mem_map.mp hw with ⟨s', hs', rfl⟩
    have hs'' : s' ∈ strs.map pyStrip := List.mem_of_mem_filter hs'
    rcases List.mem_map.mp hs'' with ⟨s0, hs0, rfl⟩
    exact Or.inr ⟨s0, hs0, pyStripL_subset s0.data hc⟩

mutual

theorem selOneN_texts :
    ∀ (sel : Selector) (n m : Node), selOneN sel n = some m →
      ∀ s ∈ textsN m, s ∈ textsN n
  | sel, .text t, m, h => by simp [selOneN] at h
  | sel, .elem tag attrs cs, m, h => by
    rw [selOneN] at h
    by_cases hm : matchesSel sel (.elem tag attrs cs)
    · rw [if_pos hm] at h
      intro s hs
      exact (Option.some.injEq _ _ ▸ h) ▸ hs
    · rw [if_neg hm] at h
      intro s hs
      have := selOneL_texts sel cs m h s hs
      simpa [textsN] using this

theorem selOneL_texts :
    ∀ (sel : Selector) (l : List Node) (m : Node), selOneL sel l = some m →
      ∀ s ∈ textsN m, s ∈ textsL l
  | sel, [], m, h => by simp [selOneL] at h
  | sel, n :: rest, m, h => by
    rw [selOneL] at h
    cases hn : selOneN sel n with
    | some m' =>
      rw [hn] at h
      intro s hs
      have hm : selOneN sel n = some m := by rw [hn]; exact h
      exact List.mem_append_left _ (selOneN_texts sel n m hm s hs)
    | none =>
      rw [hn] at h
      intro s hs
      exact List.mem_append_right _ (selOneL_texts sel rest m h s hs)

end

mutual

theorem scrubN_clean :
    ∀ (bad : List String) (n m : Node), scrubN bad n = some m → cleanN bad m = true
  | bad, .text s, m, h => by
    rw [scrubN] at h
    have hm : Node.text s = m := by simpa using h
    rw [← hm, cleanN]
  | bad, .elem tag attrs cs, m, h => by
    rw [scrubN] at h
    by_cases hb : bad.contains tag
    · rw [if_pos hb] at h; exact absurd h (by simp)
    · rw [if_neg hb] at h
      have hm : Node.elem tag attrs (scrubL bad cs) = m := by
        simpa using h
      rw [← hm, cleanN]
      simp only [Bool.and_eq_true, Bool.not_eq_true']
      exact ⟨by simpa using hb, scrubL_clean bad cs⟩

theorem scrubL_clean :
    ∀ (bad : List String) (l : List Node), cleanL bad (scrubL bad l) = true
  | bad, [] => rfl
  | bad, n :: rest => by
    rw [scrubL]
    cases hn : scrubN bad n with
    | some m =>
      rw [cleanL, scrubN_clean bad n m hn, scrubL_clean bad rest]
      rfl
    | none => exact scrubL_clean bad rest

end

theorem extractMid_mem (doc2 : List Node) (c : Char)
    (h : c ∈ (extractMid doc2).data) :
    c = ' ' ∨ ∃ s ∈ textsL doc2, c ∈ s.data := by
  cases hsel : selectFirst doc2 with
  | none =>
    rw [extractMid, hsel] at h
    exact getTextStripOf_mem (textsL doc2) c h
  | some node =>
    rw [extractMid, hsel] at h
    simp only [Option.map_some'] at h
    by_cases he : getTextStripN node = ""
    · rw [if_pos he] at h
      exact getTextStripOf_mem (textsL doc2) c h
    · rw [if_neg he] at h
      rcases getTextStripOf_mem (textsN node) c h with h1 | ⟨s, hs, hcs⟩
      · exact Or.inl h1
      · obtain ⟨sel, hsel', hfound⟩ := List.exists_of_findSome?_eq_some hsel
        exact Or.inr ⟨s, selOneL_texts sel doc2 node hfound s hs, hcs⟩

theorem extractFull_mem (doc : List Node) (c : Char)
    (h : c ∈ (extractFull doc).data) :
    c = ' ' ∨ ∃ s ∈ textsL (scrubL stripTags doc), c ∈ s.data := by
  rw [extractFull] at h
  rcases collapseWs_mem _ c h with h1 | h1
  · exact Or.inl h1
  · exact extractMid_mem _ c h1

theorem findSome?_none_append {α β : Type} (f : α → Option β) :
    ∀ (pre : List α), (∀ s ∈ pre, f s = none) →
      ∀ (l : List α), (pre ++ l).findSome? f = l.findSome? f
  | [], _, l => rfl
  | a :: pre', h, l => by
    have ha : f a = none := h a (List.mem_cons_self a pre')
    rw [List.cons_append, List.findSome?_cons, ha]
    exact findSome?_none_append f pre' (fun s hs => h s (List.mem_cons_of_mem a hs)) l

/-- If the result has a truthy URL and its fetch succeeds, the enhanced
result carries the extracted content and the `success` status. -/
theorem processResult_ok (fetch : Fetch) (r : ResultIn) (u : String)
    (doc : List Node) (hu : r.url = some u) (hne : u ≠ "")
    (hf : fetch u = Except.ok doc) :
    (processResult fetch r).content_extraction_status = "success" ∧
    (processResult fetch r).content = some (extract 2000 doc) := by
  rw [processResult, hu]
  simp [urlTruthy, bne_iff_ne, hne, hf]

/-- If the result has a truthy URL and its fetch raises, the enhanced result
keeps `content = None` and records the `error: ...` status. -/
theorem processResult_err (fetch : Fetch) (r : ResultIn) (u : String)
    (e : String) (hu : r.url = some u) (hne : u ≠ "")
    (hf : fetch u = Except.error e) :
    (processResult fetch r).content_extraction_status = "error: " ++ e ∧
    (processResult fetch r).content = none := by
  rw [processResult, hu]
  simp [urlTruthy, bne_iff_ne, hne, hf]

/-- The status of an enhanced result is always one of the three forms. -/
theorem processResult_status_cases (fetch : Fetch) (r : ResultIn) :
    (processResult fetch r).content_extraction_status = "not_attempted" ∨
    (processResult fetch r).content_extraction_status = "success" ∨
    ∃ e, (processResult fetch r).content_extraction_status = "error: " ++ e := by
  cases hr : r.url with
  | none => left; rw [processResult, hr]; simp [urlTruthy]
  | some u =>
    by_cases hu : u = ""
    · left; rw [processResult, hr, hu]; simp [urlTruthy]
    · cases hf : fetch u with
      | ok doc =>
        right; left
        exact (processResult_ok fetch r u doc hr hu hf).1
      | error e =>
        right; right
        exact ⟨e, (processResult_err fetch r u e hr hu hf).1⟩

theorem dropWhile_of_noWs (l : List Char) (h : ∀ c ∈ l, isPyWs c = false) :
    l.dropWhile isPyWs = l := by
  cases l with
  | nil => rfl
  | cons c rest => simp [List.dropWhile_cons, h c (List.mem_cons_self c rest)]

theorem pyStripL_of_noWs (l : List Char) (h : ∀ c ∈ l, isPyWs c = false) :
    pyStripL l = l := by
  unfold pyStripL
  rw [dropWhile_of_noWs l h,
      dropWhile_of_noWs l.reverse (fun c hc => h c (List.mem_reverse.mp hc)),
      List.reverse_reverse]

theorem pyWordsAux_of_noWs :
    ∀ (l acc : List Char), (∀ c ∈ l, isPyWs c = false) → (acc ≠ [] ∨ l ≠ []) →
      pyWordsAux acc l = [acc.reverse ++ l]
  | [], acc, _, hne => by
    rcases hne with ha | hl
    · rw [pyWordsAux]
      simp [List.isEmpty_iff, ha]
    · exact absurd rfl hl
  | c :: rest, acc, h, _ => by
    rw [pyWordsAux]
    have hc : isPyWs c = false := h c (List.mem_cons_self c rest)
    rw [hc]
    simp only [Bool.false_eq_true, if_false]
    rw [pyWordsAux_of_noWs rest (c :: acc)
          (fun d hd => h d (List.mem_cons_of_mem c hd)) (Or.inl (by simp))]
    simp [List.reverse_cons, List.append_assoc]

theorem collapseWs_of_noWs (l : List Char) (hne : l ≠ [])
    (h : ∀ c ∈ l, isPyWs c = false) : collapseWs (String.mk l) = String.mk l := by
  rw [collapseWs]
  have : pyWordsAux [] (String.mk l).data = [l] := by
    have := pyWordsAux_of_noWs l [] h (Or.inr hne)
    simpa using this
  rw [this]
  rfl

theorem extractFull_text_noWs (l : List Char) (hne : l ≠ [])
    (h : ∀ c ∈ l, isPyWs c = false) :
    extractFull [Node.text (String.mk l)] = String.mk l := by
  have hsel : selectFirst [Node.text (String.mk l)] = none := by
    apply List.findSome?_eq_none_iff.mpr
    intro sel _
    rfl
  have hne' : (String.mk l) ≠ "" := fun hx => hne (congrArg String.data hx)
  have hstrip : pyStrip (String.mk l) = String.mk l :=
    congrArg String.mk (pyStripL_of_noWs l h)
  have hmid : extractMid [Node.text (String.mk l)] = String.mk l := by
    rw [extractMid, hsel]
    show getTextStripOf [String.mk l] = String.mk l
    rw [getTextStripOf, List.map_cons, List.map_nil, hstrip]
    have hf : List.filter (fun s => s != "") [String.mk l] = [String.mk l] := by
      simp [List.filter_cons, bne_iff_ne, hne']
    rw [hf]
    rfl
  rw [extractFull]
  show collapseWs (extractMid (scrubL stripTags [Node.text (String.mk l)])) = _
  have hscrub : scrubL stripTags [Node.text (String.mk l)] = [Node.text (String.mk l)] := rfl
  rw [hscrub, hmid]
  exact collapseWs_of_noWs l hne h

/-! ### Claim theorems -/

/-- C6: for every integer `max_results`, the value sent to the search API is
`min(max(max_results, 1), 20)`, which always lies in [1, 20]; in particular a
requested 0 is sent as 1 and a requested 50 as 20. -/
theorem c6_max_results_clamped :
    (∀ n : Int, 1 ≤ clampMaxResults n ∧ clampMaxResults n ≤ 20) ∧
    clampMaxResults 0 = 1 ∧ clampMaxResults 50 = 20 := by
  refine ⟨fun n => ⟨?_, ?_⟩, by decide, by decide⟩ <;>
    · simp only [clampMaxResults]
      omega

/-- C7: a failing primary search call makes `search_perplexity` return the
error envelope carrying the exception message, and every envelope of either
tool (both files) has status exactly `success` or `error`, with the payload
present exactly on success and the error message exactly on error. -/
theorem c7_error_envelope :
    (∀ (e : String) (fetch : Fetch) (q : String),
        search_perplexity (Except.error e) fetch q =
          { status := "error", query := q, results := none,
            total_results := none, error := some e }) ∧
    (∀ (api : Except String (List ResultIn)) (fetch : Fetch) (q : String),
        ((search_perplexity api fetch q).status = "success" ∧
          (search_perplexity api fetch q).results ≠ none ∧
          (search_perplexity api fetch q).error = none) ∨
        ((search_perplexity api fetch q).status = "error" ∧
          (search_perplexity api fetch q).results = none ∧
          (search_perplexity api fetch q).error ≠ none)) ∧
    (∀ (fetch : FetchPage) (u : String),
        ((fetch_webpage_content fetch u).status = "success" ∧
          (fetch_webpage_content fetch u).content ≠ none ∧
          (fetch_webpage_content fetch u).error = none) ∨
        ((fetch_webpage_content fetch u).status = "error" ∧
          (fetch_webpage_content fetch u).content = none ∧
          (fetch_webpage_content fetch u).error ≠ none)) ∧
    (∀ (fetch : FetchPage) (u : String),
        ((archive_fetch_webpage_content fetch u).status = "success" ∧
          (archive_fetch_webpage_content fetch u).content ≠ none ∧
          (archive_fetch_webpage_content fetch u).error = none) ∨
        ((archive_fetch_webpage_content fetch u).status = "error" ∧
          (archive_fetch_webpage_content fetch u).content = none ∧
          (archive_fetch_webpage_content fetch u).error ≠ none)) := by
  refine ⟨fun e fetch q => rfl, fun api fetch q => ?_,
          fun fetch u => ?_, fun fetch u => ?_⟩
  · cases api with
    | ok rs => left; refine ⟨rfl, by simp [search_perplexity], rfl⟩
    | error e => right; refine ⟨rfl, rfl, by simp [search_perplexity]⟩
  · cases hf : fetch u with
    | ok p =>
      obtain ⟨doc, code⟩ := p
      left; refine ⟨?_, ?_, ?_⟩ <;> simp [fetch_webpage_content, hf]
    | error e =>
      right; refine ⟨?_, ?_, ?_⟩ <;> simp [fetch_webpage_content, hf]
  · cases hf : fetch u with
    | ok p =>
      obtain ⟨doc, code⟩ := p
      left; refine ⟨?_, ?_, ?_⟩ <;> simp [archive_fetch_webpage_content, hf]
    | error e =>
      right; refine ⟨?_, ?_, ?_⟩ <;> simp [archive_fetch_webpage_content, hf]

/-- C8: extraction is total — whenever the page fetch succeeds the
extraction status is `success` and some content is produced (both tools of
src/server.py), and when no selector matches, the pipeline degrades to the
whole-document text instead of failing. -/
theorem c8_extraction_never_fails :
    (∀ (fetch : Fetch) (r : ResultIn) (u : String) (doc : List Node),
        r.url = some u → u ≠ "" → fetch u = Except.ok doc →
        (processResult fetch r).content_extraction_status = "success" ∧
        (processResult fetch r).content = some (extract 2000 doc)) ∧
    (∀ (fetch : FetchPage) (u : String) (doc : List Node) (code : Nat),
        fetch u = Except.ok (doc, code) →
        (fetch_webpage_content fetch u).status = "success" ∧
        (fetch_webpage_content fetch u).content = some (extract 5000 doc)) ∧
    (∀ (doc : List Node),
        selectFirst (scrubL stripTags doc) = none →
        extractFull doc = collapseWs (getTextStripL (scrubL stripTags doc))) := by
  refine ⟨fun fetch r u doc hu hne hf => processResult_ok fetch r u doc hu hne hf,
          fun fetch u doc code hf => ?_, fun doc hsel => ?_⟩
  · constructor <;> simp [fetch_webpage_content, hf, extract]
  · simp only [extractFull, extractMid, hsel, Option.map_none']

/-- C8 witness: a concrete successful fetch yields the `success` status. -/
theorem c8_witness :
    ((⟨some "u", none, none, none⟩ : ResultIn).url = some "u") ∧ ("u" : String) ≠ "" ∧
    (processResult (fun _ => Except.ok [Node.text "hi"])
        ⟨some "u", none, none, none⟩).content_extraction_status = "success" :=
  ⟨rfl, by decide,
   (c8_extraction_never_fails.1 (fun _ => Except.ok [Node.text "hi"])
      ⟨some "u", none, none, none⟩ "u" [Node.text "hi"] rfl (by decide) rfl).1⟩

/-- C10: a result whose `url` is missing or empty is kept in the batch with
`content = None` and status `not_attempted`, its fetch is never consulted
(the outcome is the same for every fetch function), and every result status
is `not_attempted`, `success`, or of the form `error: ...`. -/
theorem c10_untruthy_url_skips_fetch :
    (∀ (fetch fetch' : Fetch) (r : ResultIn),
        (r.url = none ∨ r.url = some "") →
        processResult fetch r = processResult fetch' r ∧
        (processResult fetch r).content = none ∧
        (processResult fetch r).content_extraction_status = "not_attempted") ∧
    (∀ (fetch : Fetch) (q : String) (rs : List ResultIn),
        (search_perplexity (Except.ok rs) fetch q).results =
          some (rs.map (processResult fetch))) ∧
    (∀ (fetch : Fetch) (r : ResultIn),
        (processResult fetch r).content_extraction_status = "not_attempted" ∨
        (processResult fetch r).content_extraction_status = "success" ∨
        ∃ e, (processResult fetch r).content_extraction_status = "error: " ++ e) := by
  refine ⟨fun fetch fetch' r h => ?_, fun fetch q rs => rfl,
          fun fetch r => processResult_status_cases fetch r⟩
  rcases h with h | h <;>
    exact ⟨by simp [processResult, h, urlTruthy],
           by simp [processResult, h, urlTruthy],
           by simp [processResult, h, urlTruthy]⟩

/-- C10 witness: a result with `url = ""` is skipped regardless of fetch. -/
theorem c10_witness :
    ((⟨some "", none, none, none⟩ : ResultIn).url = none ∨
      (⟨some "", none, none, none⟩ : ResultIn).url = some "") ∧
    (processResult (fun _ => Except.error "boom")
        ⟨some "", none, none, none⟩).content_extraction_status = "not_attempted" :=
  ⟨Or.inr rfl,
   (c10_untruthy_url_skips_fetch.1 (fun _ => Except.error "boom")
      (fun _ => Except.error "boom") ⟨some "", none, none, none⟩ (Or.inr rfl)).2.2⟩

/-- C4: the content string of every envelope is at most 2000 characters on
the search-result enrichment path and at most 5000 characters on either
direct fetch path, and the truncation is a plain character slice. -/
theorem c4_output_capped :
    (∀ (fetch : Fetch) (r : ResultIn) (c : String),
        (processResult fetch r).content = some c → c.length ≤ 2000) ∧
    (∀ (fetch : FetchPage) (u c : String),
        (fetch_webpage_content fetch u).content = some c → c.length ≤ 5000) ∧
    (∀ (fetch : FetchPage) (u c : String),
        (archive_fetch_webpage_content fetch u).content = some c → c.length ≤ 5000) ∧
    (∀ (s : String) (n : Nat), (pySlice s n).data = s.data.take n) := by
  have hlen : ∀ (s : String) (n : Nat), (pySlice s n).length ≤ n := by
    intro s n
    show (s.data.take n).length ≤ n
    exact s.data.length_take_le n
  refine ⟨fun fetch r c hc => ?_, fun fetch u c hc => ?_,
          fun fetch u c hc => ?_, fun s n => rfl⟩
  · cases hr : r.url with
    | none => rw [processResult, hr] at hc; simp [urlTruthy] at hc
    | some u =>
      by_cases hu : u = ""
      · rw [processResult, hr, hu] at hc; simp [urlTruthy] at hc
      · cases hf : fetch u with
        | error e =>
          rw [(processResult_err fetch r u e hr hu hf).2] at hc
          simp at hc
        | ok doc =>
          rw [(processResult_ok fetch r u doc hr hu hf).2] at hc
          rw [← Option.some.injEq _ _ |>.mp hc]
          exact hlen _ 2000
  · cases hf : fetch u with
    | error e => simp [fetch_webpage_content, hf] at hc
    | ok p =>
      obtain ⟨doc, code⟩ := p
      simp only [fetch_webpage_content, hf] at hc
      rw [← Option.some.injEq _ _ |>.mp hc]
      exact hlen _ 5000
  · cases hf : fetch u with
    | error e => simp [archive_fetch_webpage_content, hf] at hc
    | ok p =>
      obtain ⟨doc, code⟩ := p
      simp only [archive_fetch_webpage_content, hf] at hc
      rw [← Option.some.injEq _ _ |>.mp hc]
      exact hlen _ 5000

/-- C4 witness: a concrete enrichment result's content obeys the 2000 cap. -/
theorem c4_witness :
    ((processResult (fun _ => Except.ok [Node.text "hi"])
        ⟨some "u", none, none, none⟩).content = some "hi") ∧
    ("hi" : String).length ≤ 2000 :=
  ⟨by decide,
   c4_output_capped.1 (fun _ => Except.ok [Node.text "hi"])
     ⟨some "u", none, none, none⟩ "hi" (by decide)⟩

/-- C5 (amended): in the selector-based extractor (both tools of
src/server.py and the search path of archive/server.py), when no selector of
the fixed list matches any node, the output is the whole-document text
(`get_text(separator=' ', strip=True)` of the scrubbed tree) with whitespace
runs collapsed to single spaces, truncated to the caller's cap.  The original
claim also covered archive/server.py's `fetch_webpage_content`, which never
collapses whitespace — see the counterexample. -/
theorem c5_no_selector_fallback (cap : Nat) (doc : List Node)
    (h : ∀ sel ∈ selectors, selOneL sel (scrubL stripTags doc) = none) :
    extract cap doc =
      pySlice (collapseWs (getTextStripL (scrubL stripTags doc))) cap := by
  have hsel : selectFirst (scrubL stripTags doc) = none :=
    List.findSome?_eq_none_iff.mpr h
  rw [extract, extractFull, extractMid, hsel]
  rfl

/-- C5 witness: a document that is a bare text node matches no selector and
yields the collapsed whole-document text. -/
theorem c5_witness :
    (∀ sel ∈ selectors, selOneL sel (scrubL stripTags [Node.text " x  y "]) = none) ∧
    extract 2000 [Node.text " x  y "] =
      pySlice (collapseWs (getTextStripL (scrubL stripTags [Node.text " x  y "]))) 2000 ∧
    extract 2000 [Node.text " x  y "] = "x y" := by
  have h : ∀ sel ∈ selectors,
      selOneL sel (scrubL stripTags [Node.text " x  y "]) = none := by
    intro sel _
    rfl
  exact ⟨h, c5_no_selector_fallback 2000 _ h, by decide⟩

/-- C5 counterexample: archive/server.py's `fetch_webpage_content` (covered
by the claim's "both tools of both source files") returns the raw
`get_text()` with no whitespace collapsing: on a document whose only text is
`"a\n\nb"` (no selector matches), it returns `"a\n\nb"` and not the
whitespace-collapsed `"a b"` the claim requires. -/
theorem c5_counterexample :
    (∀ sel ∈ selectors, selOneL sel (scrubL stripTags [Node.text "a\n\nb"]) = none) ∧
    (archive_fetch_webpage_content
        (fun _ => Except.ok ([Node.text "a\n\nb"], 200)) "u").content =
      some "a\n\nb" ∧
    pySlice (collapseWs (getTextStripL (scrubL stripTags [Node.text "a\n\nb"]))) 5000 =
      "a b" ∧
    ("a\n\nb" : String) ≠ "a b" :=
  ⟨fun _ _ => rfl, by decide, by decide, by decide⟩

/-- C3 (amended): when the first selector (in the fixed priority order)
whose `select_one` matches the scrubbed tree returns a node with nonempty
stripped text, extraction returns that node's text, whitespace-collapsed and
capped, no matter what lower-priority selectors would match.  Amended: when
the matched node's text is empty, `if not main_content:` falls through to
the whole-document text instead of returning the node's text — see the
counterexample. -/
theorem c3_first_selector_wins (cap : Nat) (doc : List Node)
    (pre post : List Selector) (sel : Selector) (node : Node)
    (hsels : selectors = pre ++ sel :: post)
    (hpre : ∀ s ∈ pre, selOneL s (scrubL stripTags doc) = none)
    (hmatch : selOneL sel (scrubL stripTags doc) = some node)
    (hnonempty : getTextStripN node ≠ "") :
    extract cap doc = pySlice (collapseWs (getTextStripN node)) cap := by
  have hfind : selectFirst (scrubL stripTags doc) = some node := by
    rw [selectFirst, hsels, findSome?_none_append _ pre hpre,
        List.findSome?_cons, hmatch]
  rw [extract, extractFull, extractMid, hfind]
  simp only [Option.map_some', if_neg hnonempty]

/-- C3 witness: `<main>hello</main>` is matched by the first selector and its
collapsed text is returned. -/
theorem c3_witness :
    selOneL (Selector.tag "main")
        (scrubL stripTags [Node.elem "main" [] [Node.text "hello"]]) =
      some (Node.elem "main" [] [Node.text "hello"]) ∧
    getTextStripN (Node.elem "main" [] [Node.text "hello"]) ≠ "" ∧
    extract 2000 [Node.elem "main" [] [Node.text "hello"]] =
      pySlice (collapseWs
        (getTextStripN (Node.elem "main" [] [Node.text "hello"]))) 2000 :=
  ⟨rfl, by decide,
   c3_first_selector_wins 2000 [Node.elem "main" [] [Node.text "hello"]]
     [] _ (Selector.tag "main") (Node.elem "main" [] [Node.text "hello"])
     rfl (by simp) rfl (by decide)⟩

/-- C3 counterexample: in `<main></main><div class="content">hello</div>`
the highest-priority selector `main` matches (its `select_one` returns
the `main` element, and lower-priority `.content` also matches), yet
extraction returns `"hello"` — the whole-document fallback — and not the
matched node's (empty, collapsed, capped) text, refuting the claim as
stated. -/
theorem c3_counterexample :
    selectFirst (scrubL stripTags
        [Node.elem "main" [] [],
         Node.elem "div" [("class", "content")] [Node.text "hello"]]) =
      some (Node.elem "main" [] []) ∧
    extract 2000
        [Node.elem "main" [] [],
         Node.elem "div" [("class", "content")] [Node.text "hello"]] = "hello" ∧
    pySlice (collapseWs (getTextStripN (Node.elem "main" [] []))) 2000 = "" ∧
    ("hello" : String) ≠ "" :=
  ⟨rfl, by decide, by decide, by decide⟩

/-- C2 (amended): the extracted text returned by either tool of either file
never contains a script body whose characters do not occur in the visible
text.  In both tools of src/server.py and the search path of
archive/server.py this is because script/style/nav/header/footer/aside/
iframe elements are decomposed before any text is read (the scrubbed tree
contains no blacklisted element); in archive/server.py's
`fetch_webpage_content` nothing is removed from the tree, but `get_text()`
itself excludes `Script`/`Stylesheet`/`TemplateString` contents, so script
text still never appears.  Amended because the claim's removal mechanism
does not hold for archive's `fetch_webpage_content` — see the
counterexample, where `nav` text is read on that path. -/
theorem c2_script_text_never_leaks :
    (∀ (cap : Nat) (doc : List Node) (t : String),
        t.data ≠ [] →
        (∀ c ∈ t.data, c ≠ ' ' ∧ ¬ c ∈ scrubbedChars doc) →
        strContains (extract cap doc) t = false ∧
        cleanL stripTags (scrubL stripTags doc) = true) ∧
    (∀ (fetch : FetchPage) (u : String) (doc : List Node) (code : Nat)
        (t c : String),
        fetch u = Except.ok (doc, code) →
        (archive_fetch_webpage_content fetch u).content = some c →
        t.data ≠ [] →
        (∀ ch ∈ t.data, ¬ ch ∈ visibleChars doc) →
        strContains c t = false) := by
  constructor
  · intro cap doc t hne hdisj
    refine ⟨?_, scrubL_clean stripTags doc⟩
    by_contra hcon
    rw [Bool.not_eq_false] at hcon
    have hsub : t.data ⊆ (extract cap doc).data := listContainsB_subset _ _ hcon
    obtain ⟨c, hc⟩ := List.exists_mem_of_ne_nil t.data hne
    have hc1 : c ∈ (extract cap doc).data := hsub hc
    have hc2 : c ∈ (extractFull doc).data := List.take_subset _ _ hc1
    rcases extractFull_mem doc c hc2 with h | ⟨s, hs, hcs⟩
    · exact (hdisj c hc).1 h
    · exact (hdisj c hc).2
        (List.mem_flatten.mpr ⟨s.data, List.mem_map_of_mem String.data hs, hcs⟩)
  · intro fetch u doc code t c hf hc hne hdisj
    simp only [archive_fetch_webpage_content, hf] at hc
    have hceq : pySlice (joinAll (textsVisibleL doc)) 5000 = c := by
      simpa using hc
    by_contra hcon
    rw [Bool.not_eq_false] at hcon
    have hsub : t.data ⊆ c.data := listContainsB_subset _ _ hcon
    obtain ⟨ch, hch⟩ := List.exists_mem_of_ne_nil t.data hne
    have h1 : ch ∈ c.data := hsub hch
    rw [← hceq] at h1
    have h2 : ch ∈ (joinAll (textsVisibleL doc)).data := List.take_subset _ _ h1
    exact hdisj ch hch h2

/-- C2 witness: the script body `Z` survives into neither the selector-based
extractor's output nor archive's `get_text()`-based output. -/
theorem c2_witness :
    (("Z" : String).data ≠ []) ∧
    (∀ c ∈ ("Z" : String).data, c ≠ ' ' ∧
      ¬ c ∈ scrubbedChars [Node.elem "script" [] [Node.text "Z"], Node.text "hi"]) ∧
    strContains
      (extract 2000 [Node.elem "script" [] [Node.text "Z"], Node.text "hi"])
      "Z" = false ∧
    (archive_fetch_webpage_content
        (fun _ => Except.ok
          ([Node.elem "script" [] [Node.text "Z"], Node.text "hi"], 200))
        "u").content = some "hi" ∧
    strContains "hi" "Z" = false :=
  ⟨by decide, by decide,
   (c2_script_text_never_leaks.1 2000
      [Node.elem "script" [] [Node.text "Z"], Node.text "hi"] "Z"
      (by decide) (by decide)).1,
   by decide,
   c2_script_text_never_leaks.2
     (fun _ => Except.ok ([Node.elem "script" [] [Node.text "Z"], Node.text "hi"], 200))
     "u" [Node.elem "script" [] [Node.text "Z"], Node.text "hi"] 200 "Z" "hi"
     rfl (by decide) (by decide) (by decide)⟩

/-- C2 counterexample: the claim's stated mechanism — script, style, nav,
header, footer, aside and iframe nodes "are removed from the tree before any
text is read" by either tool of both files — is false for archive/server.py's
`fetch_webpage_content`: it decomposes nothing, so the text of a `nav`
element appears verbatim in its returned content, while the selector-based
pipeline (which does remove `nav`) reads only `"hello"` from the same
document. -/
theorem c2_counterexample :
    (archive_fetch_webpage_content
        (fun _ => Except.ok
          ([Node.elem "nav" [] [Node.text "NAVTEXT"], Node.text "hello"], 200))
        "u").content = some "NAVTEXThello" ∧
    strContains "NAVTEXThello" "NAVTEXT" = true ∧
    extract 5000 [Node.elem "nav" [] [Node.text "NAVTEXT"], Node.text "hello"] =
      "hello" :=
  ⟨by decide, by decide, by decide⟩

/-- C9: on every successful `fetch_webpage_content` call, `content_length`
is the length of the full extracted text *before* truncation (in
src/server.py the collapsed pipeline text, in archive/server.py the raw
`get_text()` text), so it can exceed 5000 and exceed the length of the
`content` string returned in the same envelope. -/
theorem c9_content_length_pre_truncation :
    (∀ (fetch : FetchPage) (u : String) (doc : List Node) (code : Nat),
        fetch u = Except.ok (doc, code) →
        (fetch_webpage_content fetch u).content_length =
          some (extractFull doc).length ∧
        (fetch_webpage_content fetch u).content =
          some (pySlice (extractFull doc) 5000)) ∧
    (∀ (fetch : FetchPage) (u : String) (doc : List Node) (code : Nat),
        fetch u = Except.ok (doc, code) →
        (archive_fetch_webpage_content fetch u).content_length =
          some (joinAll (textsVisibleL doc)).length ∧
        (archive_fetch_webpage_content fetch u).content =
          some (pySlice (joinAll (textsVisibleL doc)) 5000)) ∧
    (∃ (fetch : FetchPage) (u : String) (n : Nat) (c : String),
        (fetch_webpage_content fetch u).content_length = some n ∧
        (fetch_webpage_content fetch u).content = some c ∧
        5000 < n ∧ c.length < n) := by
  refine ⟨fun fetch u doc code hf => ?_, fun fetch u doc code hf => ?_, ?_⟩
  · constructor <;> simp [fetch_webpage_content, hf]
  · constructor <;> simp [archive_fetch_webpage_content, hf]
  · have hrep_ne : (List.replicate 5001 'a') ≠ ([] : List Char) := by
      intro hx
      have hlen := congrArg List.length hx
      rw [List.length_replicate] at hlen
      exact absurd hlen (by decide)
    have hrep_ws : ∀ c ∈ List.replicate 5001 'a', isPyWs c = false := by
      intro c hc
      rw [List.eq_of_mem_replicate hc]
      rfl
    have hfull := extractFull_text_noWs (List.replicate 5001 'a') hrep_ne hrep_ws
    have hcall : fetch_webpage_content
        (fun _ => Except.ok ([Node.text (String.mk (List.replicate 5001 'a'))], 200))
        "u" =
      { status := "success", url := "u",
        content := some (pySlice
          (extractFull [Node.text (String.mk (List.replicate 5001 'a'))]) 5000),
        content_length :=
          some (extractFull [Node.text (String.mk (List.replicate 5001 'a'))]).length,
        status_code := some 200, error := none } := rfl
    refine ⟨fun _ => Except.ok ([Node.text (String.mk (List.replicate 5001 'a'))], 200),
            "u", 5001,
            pySlice (String.mk (List.replicate 5001 'a')) 5000, ?_, ?_, by omega, ?_⟩
    · rw [hcall, hfull]
      show some (List.replicate 5001 'a').length = some 5001
      rw [List.length_replicate]
    · rw [hcall, hfull]
    · show ((List.replicate 5001 'a').take 5000).length < 5001
      rw [List.length_take, List.length_replicate]
      omega

/-- C9 witness: a concrete successful call reports the pre-truncation
length. -/
theorem c9_witness :
    ((fun _ : String =>
        (Except.ok ([Node.text "hi"], 200) : Except String (List Node × Nat))) "u" =
      (Except.ok ([Node.text "hi"], 200) : Except String (List Node × Nat))) ∧
    (fetch_webpage_content (fun _ => Except.ok ([Node.text "hi"], 200)) "u").content_length =
      some (extractFull [Node.text "hi"]).length :=
  ⟨rfl,
   (c9_content_length_pre_truncation.1
      (fun _ => Except.ok ([Node.text "hi"], 200)) "u" [Node.text "hi"] 200 rfl).1⟩

/-- C1: when every result URL of a batch is truthy and all fetches succeed
except exactly one, the envelope still has status `success`, keeps all N
results, and exactly one result carries an `error: ...` status while the
other N-1 are `success`. -/
theorem c1_partial_failure_isolation
    (q : String) (fetch : Fetch) (as bs : List ResultIn) (bad : ResultIn)
    (ub e : String)
    (hgood : ∀ x ∈ as ++ bs,
      ∃ u doc, x.url = some u ∧ u ≠ "" ∧ fetch u = Except.ok doc)
    (hbu : bad.url = some ub) (hbne : ub ≠ "") (hbf : fetch ub = Except.error e) :
    (search_perplexity (Except.ok (as ++ bad :: bs)) fetch q).status = "success" ∧
    (search_perplexity (Except.ok (as ++ bad :: bs)) fetch q).results =
      some ((as ++ bad :: bs).map (processResult fetch)) ∧
    (search_perplexity (Except.ok (as ++ bad :: bs)) fetch q).total_results =
      some (as.length + bs.length + 1) ∧
    List.countP (fun x => x.content_extraction_status == "success")
      ((as ++ bad :: bs).map (processResult fetch)) = as.length + bs.length ∧
    List.countP (fun x => statusIsErr x.content_extraction_status)
      ((as ++ bad :: bs).map (processResult fetch)) = 1 := by
  have hgood_status : ∀ x ∈ as ++ bs,
      (processResult fetch x).content_extraction_status = "success" := by
    intro x hx
    obtain ⟨u, doc, hu, hne, hf⟩ := hgood x hx
    exact (processResult_ok fetch x u doc hu hne hf).1
  have hbad_status :
      (processResult fetch bad).content_extraction_status = "error: " ++ e :=
    (processResult_err fetch bad ub e hbu hbne hbf).1
  refine ⟨rfl, rfl, ?_, ?_, ?_⟩
  · show some ((as ++ bad :: bs).map (processResult fetch)).length = _
    simp only [List.length_map, List.length_append, List.length_cons,
      Option.some.injEq]
    omega
  · rw [List.map_append, List.map_cons, List.countP_append, List.countP_cons]
    have h1 : List.countP (fun x => x.content_extraction_status == "success")
        (as.map (processResult fetch)) = as.length := by
      rw [List.countP_map]
      rw [List.countP_eq_length]
      intro x hx
      have hs := hgood_status x (List.mem_append_left bs hx)
      simp [Function.comp, hs]
    have h2 : List.countP (fun x => x.content_extraction_status == "success")
        (bs.map (processResult fetch)) = bs.length := by
      rw [List.countP_map]
      rw [List.countP_eq_length]
      intro x hx
      have hs := hgood_status x (List.mem_append_right as hx)
      simp [Function.comp, hs]
    have h3 : ((processResult fetch bad).content_extraction_status == "success") =
        false := by
      rw [hbad_status, beq_eq_false_iff_ne]
      exact errStatus_ne_success e
    rw [h1, h2, h3]
    simp
  · rw [List.map_append, List.map_cons, List.countP_append, List.countP_cons]
    have h1 : List.countP (fun x => statusIsErr x.content_extraction_status)
        (as.map (processResult fetch)) = 0 := by
      rw [List.countP_map]
      rw [List.countP_eq_zero]
      intro x hx
      have hs := hgood_status x (List.mem_append_left bs hx)
      simp only [Function.comp, hs]
      decide
    have h2 : List.countP (fun x => statusIsErr x.content_extraction_status)
        (bs.map (processResult fetch)) = 0 := by
      rw [List.countP_map]
      rw [List.countP_eq_zero]
      intro x hx
      have hs := hgood_status x (List.mem_append_right as hx)
      simp only [Function.comp, hs]
      decide
    have h3 : statusIsErr (processResult fetch bad).content_extraction_status =
        true := by
      rw [hbad_status]
      exact statusIsErr_append e
    rw [h1, h2, h3]
    simp

/-- C1 witness: a two-result batch where the second URL's fetch raises still
returns a `success` envelope with exactly one `error: ...` result. -/
theorem c1_witness :
    (search_perplexity
      (Except.ok (([⟨some "a", none, none, none⟩] : List ResultIn) ++
        (⟨some "b", none, none, none⟩ : ResultIn) :: []))
      (fun v => if v = "a" then Except.ok [Node.text "x"] else Except.error "boom")
      "q").status = "success" ∧
    List.countP (fun x => statusIsErr x.content_extraction_status)
      ((([⟨some "a", none, none, none⟩] : List ResultIn) ++
        (⟨some "b", none, none, none⟩ : ResultIn) :: []).map
        (processResult
          (fun v => if v = "a" then Except.ok [Node.text "x"]
                    else Except.error "boom"))) = 1 := by
  have hgood : ∀ x ∈ ([⟨some "a", none, none, none⟩] : List ResultIn) ++ [],
      ∃ u doc, x.url = some u ∧ u ≠ "" ∧
        (fun v => if v = "a" then Except.ok [Node.text "x"]
                  else Except.error "boom") u = Except.ok doc := by
    intro x hx
    simp at hx
    subst hx
    exact ⟨"a", [Node.text "x"], rfl, by decide, rfl⟩
  have h := c1_partial_failure_isolation "q"
    (fun v => if v = "a" then Except.ok [Node.text "x"] else Except.error "boom")
    [⟨some "a", none, none, none⟩] [] ⟨some "b", none, none, none⟩ "b" "boom"
    hgood rfl (by decide) rfl
  exact ⟨h.1, h.2.2.2.2⟩

end PerplexityMcp
